import Mathlib

/-!
Verification of the scholarship-scraper content triage pipeline.

Shallow embedding of the core components of the repository:
  - `processors/content_analyzer.py`  (ContentAnalyzer)
  - `processors/enrichment.py`        (EnrichmentProcessor.extract_amount)
  - `processors/url_filter.py`        (filter_url, get_best_scholarship_url)
  - `processors/content_classifier.py`(ContentClassifier.classify_url)
  - `app/tasks.py`                    (save_scholarship_to_db, run_enrichment_task)
  - `app/models.py`, `models/scholarship.py` (data model)

Python strings are modelled as Lean `String`; text operations (lower,
strip, slicing, length) are modelled on the code-point list `String.toList`,
which agrees with Python string semantics.  Machine floats appearing in the
source are modelled as exact rationals / naturals; every claim checked here
only depends on float values that are exactly representable.  Network and
database effects are modelled by passing the fetched content / the record
store explicitly.
-/

/-! ## String utilities (Python semantics) -/

/-- Python `needle in hay` substring test. -/
def strContains (hay needle : String) : Bool :=
  decide (needle.toList <:+: hay.toList)

/-- Python `str.lower()` (ASCII case folding; all repository keywords are ASCII). -/
def lowerStr (s : String) : String :=
  String.mk (s.toList.map Char.toLower)

/-- Python `len` on strings (counts code points). -/
def strLen (s : String) : Nat :=
  s.toList.length

/-- Python slice `s[:n]`. -/
def takeStr (s : String) (n : Nat) : String :=
  String.mk (s.toList.take n)

/-- Python whitespace class used by `strip()` and the regex class `\s` (ASCII part). -/
def isPyWhitespace (c : Char) : Bool :=
  c = ' ' || c = '\t' || c = '\n' || c = '\r' || c = '\x0b' || c = '\x0c'

/-- Python `str.strip()`. -/
def trimStr (s : String) : String :=
  String.mk (((s.toList.dropWhile isPyWhitespace).reverse.dropWhile isPyWhitespace).reverse)

/-- Python `str.endswith(suff)`. -/
def endsWithStr (s suff : String) : Bool :=
  decide (suff.toList <:+ s.toList)

/-- Python `str.startswith(pre)`. -/
def startsWithStr (s pre : String) : Bool :=
  decide (pre.toList <+: s.toList)

/-- Numeric value of a list of ASCII digits, as Python `int` on the digit string. -/
def digitsToNat (l : List Char) : Nat :=
  l.foldl (fun n c => n * 10 + (c.toNat - '0'.toNat)) 0

/-- Insert a comma after every three characters of a reversed digit list. -/
def insertCommasRev : List Char → List Char
  | a :: b :: c :: d :: rest => a :: b :: c :: ',' :: insertCommasRev (d :: rest)
  | l => l

/-- Python `f"{n:,}"` on a nonnegative integer: thousands-grouped decimal. -/
def commaGroup (n : Nat) : String :=
  String.mk ((insertCommasRev (Nat.toDigits 10 n).reverse).reverse)

/-! ## ContentAnalyzer (`processors/content_analyzer.py`) -/

namespace ContentAnalyzer

/-- `self.keywords` from `ContentAnalyzer.__init__`. -/
def keywords : List String :=
  ["scholarship", "grant", "fellowship", "aid", "tuition", "stipend"]

/-- `self.negative_keywords` from `ContentAnalyzer.__init__`. -/
def negative_keywords : List String :=
  ["loan", "scam", "sweepstakes"]

/-- `ContentAnalyzer.calculate_relevance_score`: +10 for each positive keyword
present as a substring of the lowercased text, -50 for each negative keyword
present (presence test, not a frequency count). -/
def calculate_relevance_score (text : String) : Int :=
  let tl := lowerStr text
  let s1 := keywords.foldl (fun s w => if strContains tl w then s + 10 else s) (0 : Int)
  negative_keywords.foldl (fun s w => if strContains tl w then s - 50 else s) s1

/-- `ContentAnalyzer.is_scholarship`. -/
def is_scholarship (text : String) : Bool :=
  decide (calculate_relevance_score text > 0)

/-- One step of the scan of `re.findall` with the pattern
matching a dollar sign, one or more digits, optionally followed by a comma and
one or more digits (the amount regex in `ContentAnalyzer.extract_amount`).
Tries to match at the head of `l`; on success returns the matched token and
the remaining input. -/
def matchAmountAt : List Char → Option (List Char × List Char)
  | '$' :: cs =>
    let ds := cs.takeWhile Char.isDigit
    if ds.isEmpty then none
    else
      let rest := cs.drop ds.length
      match rest with
      | ',' :: r2 =>
        let ds2 := r2.takeWhile Char.isDigit
        if ds2.isEmpty then some ('$' :: ds, rest)
        else some (('$' :: ds) ++ (',' :: ds2), r2.drop ds2.length)
      | _ => some ('$' :: ds, rest)
  | _ => none

/-- Left-to-right non-overlapping scan of `re.findall` for the amount pattern;
`fuel` bounds the recursion (callers pass the input length plus one, which is
always sufficient since every step consumes at least one character). -/
def scanAmounts : Nat → List Char → List (List Char)
  | 0, _ => []
  | _, [] => []
  | fuel + 1, c :: cs =>
    match matchAmountAt (c :: cs) with
    | some (m, rest) => m :: scanAmounts fuel rest
    | none => scanAmounts fuel cs

/-- Sort key in `ContentAnalyzer.extract_amount`:
`int(x.replace("$", "").replace(",", ""))`, the integer of the digits kept. -/
def amountKey (m : List Char) : Nat :=
  digitsToNat (m.filter Char.isDigit)

/-- Python `max(ms, key=amountKey)`: first element attaining the maximal key. -/
def maxByAmountKey (m : List Char) (ms : List (List Char)) : List Char :=
  ms.foldl (fun best x => if amountKey x > amountKey best then x else best) m

/-- `ContentAnalyzer.extract_amount`: find all amount-pattern matches and
return the one with maximal numeric value, verbatim as matched (no
normalization); `none` when no match. -/
def extract_amount (text : String) : Option String :=
  match scanAmounts (strLen text + 1) text.toList with
  | [] => none
  | m :: ms => some (String.mk (maxByAmountKey m ms))

end ContentAnalyzer

/-! ## EnrichmentProcessor (`processors/enrichment.py`) -/

namespace EnrichmentProcessor

/-- One step of the scan of `re.findall` with the pattern of
`EnrichmentProcessor.extract_amount`: a dollar sign, at most one whitespace
character, one or more digits, optionally a literal lowercase k (the text has
already been lowercased).  On success returns the digit value, whether the k
was present, and the remaining input. -/
def matchDollarAt : List Char → Option (Nat × Bool × List Char)
  | '$' :: cs =>
    let ds := cs.takeWhile Char.isDigit
    if ds.isEmpty then
      match cs with
      | w :: tl =>
        if isPyWhitespace w then
          let ds2 := tl.takeWhile Char.isDigit
          if ds2.isEmpty then none
          else
            match tl.drop ds2.length with
            | 'k' :: r2 => some (digitsToNat ds2, true, r2)
            | r2 => some (digitsToNat ds2, false, r2)
        else none
      | [] => none
    else
      match cs.drop ds.length with
      | 'k' :: r2 => some (digitsToNat ds, true, r2)
      | r2 => some (digitsToNat ds, false, r2)
  | _ => none

/-- Left-to-right non-overlapping scan for the dollar pattern (`re.findall`);
`fuel` bounds the recursion, callers pass input length plus one. -/
def scanDollars : Nat → List Char → List (Nat × Bool)
  | 0, _ => []
  | _, [] => []
  | fuel + 1, c :: cs =>
    match matchDollarAt (c :: cs) with
    | some (v, k, rest) => (v, k) :: scanDollars fuel rest
    | none => scanDollars fuel cs

/-- One step of the scan for the second regex of
`EnrichmentProcessor.extract_amount`: one or more digits, at most one
whitespace character, then the literal word dollars.  The source computes
this list of matches (`matches_usd`) but never reads it. -/
def matchDollarsWordAt (l : List Char) : Option (List Char × List Char) :=
  let ds := l.takeWhile Char.isDigit
  if ds.isEmpty then none
  else
    let rest := l.drop ds.length
    let afterWs :=
      match rest with
      | w :: tl => if isPyWhitespace w then some (w, tl) else none
      | [] => none
    match afterWs with
    | some (w, tl) =>
      if startsWithStr (String.mk tl) "dollars" then
        some (ds ++ [w] ++ "dollars".toList, tl.drop 7)
      else if startsWithStr (String.mk rest) "dollars" then
        some (ds ++ "dollars".toList, rest.drop 7)
      else none
    | none =>
      if startsWithStr (String.mk rest) "dollars" then
        some (ds ++ "dollars".toList, rest.drop 7)
      else none

/-- Scan for the digits-then-dollars pattern; dead code in the source
(`matches_usd` is computed and discarded), embedded here as evidence. -/
def scanDollarsWord : Nat → List Char → List (List Char)
  | 0, _ => []
  | _, [] => []
  | fuel + 1, c :: cs =>
    match matchDollarsWordAt (c :: cs) with
    | some (m, rest) => m :: scanDollarsWord fuel rest
    | none => scanDollarsWord fuel cs

/-- The `matches_usd` list of `EnrichmentProcessor.extract_amount`: computed
from the comma-stripped lowercased text and then never used by the source. -/
def matches_usd (text : String) : List String :=
  let cleaned := (text.toList.filter (fun c => c != ',')).map Char.toLower
  (scanDollarsWord (cleaned.length + 1) cleaned).map String.mk

/-- `EnrichmentProcessor.extract_amount`: strip commas, lowercase, collect
dollar-pattern values (k multiplies by 1000), keep those strictly above 100,
and format the maximum as a dollar sign plus thousands-grouped integer.
The digits-then-dollars matches are computed but ignored by the source, so
they do not contribute. -/
def extract_amount (text : String) : Option String :=
  let cleaned := (text.toList.filter (fun c => c != ',')).map Char.toLower
  let vals := (scanDollars (cleaned.length + 1) cleaned).map
    (fun p => p.1 * (if p.2 then 1000 else 1))
  let amounts := vals.filter (fun v => v > 100)
  match amounts with
  | [] => none
  | v :: vs => some ("$" ++ commaGroup (vs.foldl Nat.max v))

end EnrichmentProcessor

/-! ## UrlFilter (`processors/url_filter.py`) -/

namespace UrlFilter

/-- `ARTICLE_PATH_PATTERNS`: each entry pairs the regex source text (used in
the reason string, the source strips backslashes but none of these patterns
contains one) with the finite set of literal strings matched by the regex,
so that a regex search on the path is exactly a substring test against one of
the expansions.  All paths are already lowercase, making the IGNORECASE flag
of the source irrelevant. -/
def ARTICLE_PATH_PATTERNS : List (String × List String) :=
  [ ("/blog/", ["/blog/"]),
    ("/blogs/", ["/blogs/"]),
    ("/news/", ["/news/"]),
    ("/article/", ["/article/"]),
    ("/articles/", ["/articles/"]),
    ("/story/", ["/story/"]),
    ("/stories/", ["/stories/"]),
    ("/press[-_]?release/", ["/pressrelease/", "/press-release/", "/press_release/"]),
    ("/press/", ["/press/"]),
    ("/featured/", ["/featured/"]),
    ("/insights/", ["/insights/"]),
    ("/about[-_]?us/", ["/aboutus/", "/about-us/", "/about_us/"]),
    ("/about/", ["/about/"]),
    ("/learn/", ["/learn/"]),
    ("/resources/article", ["/resources/article"]),
    ("/post/", ["/post/"]),
    ("/posts/", ["/posts/"]),
    ("/updates/", ["/updates/"]),
    ("/announcements/", ["/announcements/"]),
    ("/media/", ["/media/"]),
    ("/magazine/", ["/magazine/"]),
    ("/journal/", ["/journal/"]) ]

/-- `ARTICLE_DOMAINS` from the source. -/
def ARTICLE_DOMAINS : List String :=
  [ "medium.com", "wordpress.com", "blogger.com", "substack.com", "hubspot.com",
    "wix.com", "squarespace.com", "tumblr.com", "ghost.io", "telegraph.co.uk",
    "theguardian.com", "nytimes.com", "washingtonpost.com", "cnn.com", "bbc.com",
    "forbes.com", "huffpost.com", "buzzfeed.com" ]

/-- `SCHOLARSHIP_PATH_PATTERNS`, with regex expansions as above. -/
def SCHOLARSHIP_PATH_PATTERNS : List (String × List String) :=
  [ ("/apply", ["/apply"]),
    ("/application", ["/application"]),
    ("/scholarship", ["/scholarship"]),
    ("/scholarships", ["/scholarships"]),
    ("/financial[-_]?aid", ["/financialaid", "/financial-aid", "/financial_aid"]),
    ("/submit", ["/submit"]),
    ("/register", ["/register"]),
    ("/eligibility", ["/eligibility"]),
    ("/award", ["/award"]),
    ("/grants?/", ["/grants/", "/grant/"]),
    ("/funding", ["/funding"]),
    ("/portal", ["/portal"]) ]

/-- `SCHOLARSHIP_DOMAINS` from the source. -/
def SCHOLARSHIP_DOMAINS : List String :=
  [ "fastweb.com", "scholarships.com", "bold.org", "niche.com", "cappex.com",
    "chegg.com", "collegeboard.org", "petersons.com", "unigo.com",
    "scholarshipamerica.org", "thescholarshipsystem.com", "goingmerry.com",
    "raise.me", "scholly.com", "jlv.org", "questbridge.org",
    "coca-colascholarsfoundation.org", "goldwaterscholarship.gov", "nsf.gov",
    "ed.gov" ]

/-- Domain test of the source: exact match or subdomain (dot-suffix). -/
def domainMatches (domain d : String) : Bool :=
  domain == d || endsWithStr domain ("." ++ d)

/-- First domain of the list matched, if any (the source iterates in order). -/
def findDomain (doms : List String) (domain : String) : Option String :=
  doms.find? (fun d => domainMatches domain d)

/-- First path pattern whose regex finds a match in the path, if any. -/
def findPathPattern (pats : List (String × List String)) (path : String) : Option String :=
  pats.findSome? (fun p => if p.2.any (fun e => strContains path e) then some p.1 else none)

/-- Model of `urllib.parse.urlparse` restricted to what `filter_url` reads
(netloc and path) for hierarchical URLs: an optional leading scheme followed
by a colon is removed; a double slash then introduces the netloc, which runs
to the next slash, question mark or hash; the path runs to the next question
mark or hash.  The character list form of the scheme-removal step. -/
def afterScheme (l : List Char) : List Char :=
  let pre := l.takeWhile (fun c => c != ':')
  if pre.length == l.length then l
  else
    match pre with
    | [] => l
    | c :: cs =>
      if c.isAlpha && cs.all (fun d => d.isAlphanum || d == '+' || d == '-' || d == '.') then
        l.drop (pre.length + 1)
      else l

/-- Netloc and path of a URL, as read by `filter_url` (see `afterScheme`). -/
def urlparseNetlocPath (s : String) : String × String :=
  match afterScheme s.toList with
  | '/' :: '/' :: rest =>
    let nl := rest.takeWhile (fun c => c != '/' && c != '?' && c != '#')
    let rem := rest.drop nl.length
    (String.mk nl, String.mk (rem.takeWhile (fun c => c != '?' && c != '#')))
  | r => ("", String.mk (r.takeWhile (fun c => c != '?' && c != '#')))

/-- The rule cascade of `filter_url` after URL parsing, on the lowercased
domain (www prefix already stripped) and path: trusted scholarship domain,
then .edu domain, then article domain, then article path, then scholarship
path, then default allow.  The .edu test models the regex search for a
dot-edu suffix as a suffix test. -/
def filterCascade (domain path : String) : Bool × String :=
  match findDomain SCHOLARSHIP_DOMAINS domain with
  | some t => (true, "allowed: trusted scholarship domain (" ++ t ++ ")")
  | none =>
    if endsWithStr domain ".edu" then
      (true, "allowed: .edu domain")
    else
      match findDomain ARTICLE_DOMAINS domain with
      | some d => (false, "blocked: article/news domain (" ++ d ++ ")")
      | none =>
        match findPathPattern ARTICLE_PATH_PATTERNS path with
        | some p => (false, "blocked: contains " ++ p ++ " pattern")
        | none =>
          match findPathPattern SCHOLARSHIP_PATH_PATTERNS path with
          | some p => (true, "allowed: scholarship-related path (" ++ p ++ ")")
          | none => (true, "allowed: no blocking patterns found (neutral)")

/-- `filter_url`: reject empty input, lowercase and parse the URL, strip a
leading www from the domain, then run the rule cascade. -/
def filter_url (url : String) : Bool × String :=
  if url == "" then (false, "invalid: empty or not a string")
  else
    let lowered := lowerStr url
    let np := urlparseNetlocPath lowered
    let domain := if startsWithStr np.1 "www." then String.mk (np.1.toList.drop 4) else np.1
    filterCascade domain np.2

/-- Survivor score in `get_best_scholarship_url`: reasons are inspected by
substring, the apply bonus by substring of the lowercased URL. -/
def scoreUrl (url : String) : Option Nat :=
  let fr := filter_url url
  if !fr.1 then none
  else
    let s1 := if strContains fr.2 "trusted scholarship domain" then 100 else 0
    let s2 := if strContains fr.2 ".edu" then 80 else 0
    let s3 := if strContains fr.2 "scholarship-related path" then 50 else 0
    let s4 := if strContains (lowerStr url) "/apply" || strContains (lowerStr url) "/application" then 30 else 0
    some (s1 + s2 + s3 + s4)

/-- The scored survivor list built by `get_best_scholarship_url` from the
deduplicated URL list. -/
def scoredList (deduped : List String) : List (Nat × String) :=
  deduped.filterMap (fun u => (scoreUrl u).map (fun s => (s, u)))

/-- The cleaned list before deduplication:
`[u.strip() for u in urls if u and isinstance(u, str)]`. -/
def cleanedUrls (urls : List String) : List String :=
  (urls.filter (fun u => u != "")).map trimStr

/-- `get_best_scholarship_url`: the source deduplicates the cleaned list with
a Python set, whose iteration order is implementation-defined (hash order),
so the embedding takes the deduplicated list `deduped` as an explicit
argument; theorems relate it to `cleanedUrls` by permutation with
`List.dedup`.  Survivors are scored, sorted by score descending with a
stable sort, and the first element returned.  Python sorts with a stable
sort; insertion sort on the non-strict descending score relation computes
the same list (equal scores keep their relative order). -/
def get_best_scholarship_url (urls : List String) (deduped : List String) : String :=
  if urls.isEmpty then ""
  else
    match scoredList deduped with
    | [] => ""
    | l => (((l.insertionSort (fun a b => b.1 ≤ a.1)).headD ((0 : Nat), "")).2)

end UrlFilter

/-! ## ContentClassifier (`processors/content_classifier.py`) -/

namespace ContentClassifier

/-- The classification result dict of `ContentClassifier.classify_url`.
The classification key is optional because the AI path stores whatever the
parsed JSON held, which may lack the key; confidence is modelled as an exact
rational (every confidence compared by a claim is exactly representable). -/
structure ClassificationResult where
  classification : Option String
  confidence : Rat
  scholarship_name : Option String
  direct_apply_url : Option String
  reason : String
  is_worth_saving : Bool
  deriving DecidableEq, Repr

/-- The fields of the JSON object returned by the AI call after parsing, as
read by `_classify_with_ai`. -/
structure AiJson where
  classification : Option String
  confidence : Rat
  scholarship_name : Option String
  direct_apply_url : Option String
  reason : String
  deriving DecidableEq, Repr

/-- `default_result` of `classify_url` before the reason is overwritten. -/
def default_result : ClassificationResult :=
  { classification := some "UNKNOWN", confidence := 0, scholarship_name := none,
    direct_apply_url := none, reason := "Could not analyze", is_worth_saving := false }

/-- `application_keywords` of `_classify_with_heuristics`. -/
def application_keywords : List String :=
  [ "apply now", "submit application", "application form", "application deadline",
    "start application", "create account", "sign up to apply", "begin application" ]

/-- `article_keywords` of `_classify_with_heuristics`. -/
def article_keywords : List String :=
  [ "share this", "related articles", "read more", "by author", "published on",
    "comments section", "subscribe to", "newsletter", "blog post" ]

/-- `_classify_with_heuristics` (leading underscore dropped): keyword counts
plus URL-path bonuses decide a four-way classification; the worth flag is
derived from the chosen classification. -/
def classify_with_heuristics (url content : String) : ClassificationResult :=
  let content_lower := lowerStr content
  let url_lower := lowerStr url
  let appBase := application_keywords.countP (fun kw => strContains content_lower kw)
  let artBase := article_keywords.countP (fun kw => strContains content_lower kw)
  let artScore := artBase +
    (if strContains url_lower "/blog/" || strContains url_lower "/news/" ||
        strContains url_lower "/article/" then 3 else 0)
  let appScore := appBase +
    (if strContains url_lower "/apply" || strContains url_lower "/application" then 3 else 0)
  let cls :=
    if appScore > artScore && appScore ≥ 2 then "APPLICATION"
    else if artScore > appScore && artScore ≥ 2 then "ARTICLE"
    else if strContains content_lower "scholarship" || strContains content_lower "financial aid" then "INFO"
    else "OTHER"
  let conf : Rat :=
    if appScore > artScore && appScore ≥ 2 then min (7/10) (4/10 + (appScore : Rat) * (1/10))
    else if artScore > appScore && artScore ≥ 2 then min (7/10) (4/10 + (artScore : Rat) * (1/10))
    else if strContains content_lower "scholarship" || strContains content_lower "financial aid" then 5/10
    else 3/10
  { classification := some cls,
    confidence := conf,
    scholarship_name := none,
    direct_apply_url := none,
    reason := "Heuristic classification (app_score=" ++ toString appScore ++
      ", article_score=" ++ toString artScore ++ ")",
    is_worth_saving := cls == "APPLICATION" || cls == "INFO" }

/-- `_classify_with_ai` (leading underscore dropped): on a successful call
and JSON parse (`some parsed`) the parsed fields are returned with the worth
flag derived from the parsed classification; any exception (`none`) falls
back to the heuristics. -/
def classify_with_ai (parsed : Option AiJson) (url content : String) : ClassificationResult :=
  match parsed with
  | some j =>
    { classification := j.classification,
      confidence := j.confidence,
      scholarship_name := j.scholarship_name,
      direct_apply_url := j.direct_apply_url,
      reason := j.reason,
      is_worth_saving := j.classification == some "APPLICATION" || j.classification == some "INFO" }
  | none => classify_with_heuristics url content

/-- `classify_url`: `content` is the text returned by `fetch_page_content`
(empty on any fetch failure); `client` is `none` when no OpenAI client is
configured, and `some parsed` carries the outcome of the AI call otherwise.
Empty or short content returns the fail-closed default. -/
def classify_url (url content : String) (client : Option (Option AiJson)) : ClassificationResult :=
  if content == "" || strLen content < 100 then
    { default_result with reason := "Could not fetch page content" }
  else
    match client with
    | some parsed => classify_with_ai parsed url content
    | none => classify_with_heuristics url content

end ContentClassifier

/-! ## Data model and tasks (`app/models.py`, `models/scholarship.py`, `app/tasks.py`) -/

/-- The `Scholarship` dataclass of `models/scholarship.py`, restricted to the
fields read by `save_scholarship_to_db`. -/
structure Scholarship where
  title : String
  source_url : String
  description : Option String
  amount : Option String
  deadline : Option String
  platform : String
  deriving DecidableEq, Repr

/-- A persisted row of `ScholarshipModel` (`app/models.py`), restricted to the
columns written by the tasks. -/
structure ScholarshipModel where
  title : String
  source_url : String
  description : Option String
  amount : Option String
  deadline : Option String
  platform : String
  raw_text : Option String
  deriving DecidableEq, Repr

/-- Python truthiness of an optional string (None and the empty string are falsy). -/
def optTruthy : Option String → Bool
  | none => false
  | some s => s != ""

/-- Python `a or b` on optional strings. -/
def pyOr (a b : Option String) : Option String :=
  if optTruthy a then a else b

/-- The `ScholarshipModel` row constructed by `save_scholarship_to_db`: the
freshly extracted amount is preferred over the one the candidate carried
(`extracted_amount or scholarship_obj.amount`), and the description is reused
as the raw text. -/
def savedRow (sch : Scholarship) : ScholarshipModel :=
  { title := sch.title,
    source_url := sch.source_url,
    description := sch.description,
    amount := pyOr (ContentAnalyzer.extract_amount (sch.description.getD "")) sch.amount,
    deadline := sch.deadline,
    platform := sch.platform,
    raw_text := sch.description }

/-- `save_scholarship_to_db` of `app/tasks.py`, with the database session
modelled as the list of persisted rows; returns the saved flag together with
the resulting store.  A row whose source_url equals the candidate URL causes
rejection with no mutation; otherwise a non-positive relevance score of the
description (empty string when absent) causes rejection; otherwise the new
row is appended. -/
def save_scholarship_to_db (sch : Scholarship) (db : List ScholarshipModel) :
    Bool × List ScholarshipModel :=
  if db.any (fun r => r.source_url == sch.source_url) then (false, db)
  else if ContentAnalyzer.calculate_relevance_score (sch.description.getD "") ≤ 0 then (false, db)
  else (true, db ++ [savedRow sch])

/-- The result dict of `EnrichmentProcessor.enrich_url` as read by
`run_enrichment_task` (empty dict on fetch failure: all fields `none`). -/
structure EnrichResult where
  amount : Option String
  deadline : Option String
  full_text : Option String
  deriving DecidableEq, Repr

/-- The description guard of `run_enrichment_task`:
`not sch.description or len(sch.description) < 100`. -/
def descShort : Option String → Bool
  | none => true
  | some d => strLen d < 100

/-- The per-record update of `run_enrichment_task`: amount and deadline are
written only when the stored field is null and the enrichment value truthy;
the description is replaced by the first 500 characters of the fetched text
plus an ellipsis marker only when the enrichment text is truthy and the
stored description is absent or shorter than 100 characters. -/
def apply_enrichment (sch : ScholarshipModel) (res : EnrichResult) : ScholarshipModel :=
  let amount' := if optTruthy res.amount && sch.amount.isNone then res.amount else sch.amount
  let deadline' := if optTruthy res.deadline && sch.deadline.isNone then res.deadline else sch.deadline
  let description' :=
    if optTruthy res.full_text && descShort sch.description then
      some (takeStr (res.full_text.getD "") 500 ++ "...")
    else sch.description
  { sch with amount := amount', deadline := deadline', description := description' }

/-! ## Fixtures used by witness theorems -/

/-- A candidate whose description mentions a scholarship (relevance 10). -/
def sampleCandidate : Scholarship :=
  { title := "STEM Scholarship", source_url := "https://example.org/scholarship",
    description := some "A scholarship for students", amount := none, deadline := none,
    platform := "general" }

/-- A persisted row carrying the same source URL as `sampleCandidate`. -/
def sampleDupRow : ScholarshipModel :=
  { title := "Old", source_url := "https://example.org/scholarship", description := none,
    amount := none, deadline := none, platform := "general", raw_text := none }

/-- The store produced by ingesting `sampleCandidate` into an empty store. -/
def sampleStore : List ScholarshipModel :=
  (save_scholarship_to_db sampleCandidate []).2

/-- A fully populated row used to check that enrichment never overwrites. -/
def enrichedRow : ScholarshipModel :=
  { title := "T", source_url := "https://example.org/s", description := none,
    amount := some "$1,000", deadline := some "June 1, 2025", platform := "general",
    raw_text := none }

/-- An enrichment result suggesting different values for every field. -/
def enrichSuggestion : EnrichResult :=
  { amount := some "$9,999", deadline := some "July 4, 2025",
    full_text := some "Full page text" }

/-- The article-scored URL of the best-URL example in the specification. -/
def blogUrl : String := "https://blog.example.com/scholarship-news"

/-- The trusted-domain URL of the best-URL example in the specification. -/
def fastwebUrl : String := "https://fastweb.com/scholarship/1"

/-- First member of a pair of distinct URLs with equal survivor scores. -/
def tieUrlA : String := "https://example.org/apply"

/-- Second member of a pair of distinct URLs with equal survivor scores. -/
def tieUrlB : String := "https://example.net/apply"

/-! ## Helper lemmas -/

lemma foldl_score_add (t : String) (c : Int) :
    ∀ (l : List String) (init : Int),
      l.foldl (fun s w => if strContains t w then s + c else s) init
        = init + c * (l.countP (fun w => strContains t w) : Int) := by
  intro l
  induction l with
  | nil => intro init; simp
  | cons w ws ih =>
    intro init
    by_cases h : strContains t w = true <;>
      simp [List.foldl_cons, h, ih, List.countP_cons] <;> push_cast <;> ring

lemma foldl_score_sub (t : String) (c : Int) :
    ∀ (l : List String) (init : Int),
      l.foldl (fun s w => if strContains t w then s - c else s) init
        = init - c * (l.countP (fun w => strContains t w) : Int) := by
  intro l
  induction l with
  | nil => intro init; simp
  | cons w ws ih =>
    intro init
    by_cases h : strContains t w = true <;>
      simp [List.foldl_cons, h, ih, List.countP_cons] <;> push_cast <;> ring

/-- Closed form of the relevance score: ten points per positive keyword
present in the lowercased text minus fifty per negative keyword present. -/
lemma calculate_relevance_score_eq (text : String) :
    ContentAnalyzer.calculate_relevance_score text
      = 10 * (ContentAnalyzer.keywords.countP (fun w => strContains (lowerStr text) w) : Int)
        - 50 * (ContentAnalyzer.negative_keywords.countP (fun w => strContains (lowerStr text) w) : Int) := by
  simp only [ContentAnalyzer.calculate_relevance_score]
  rw [foldl_score_sub, foldl_score_add]
  ring

/-- A permutation of a two-element list is one of its two arrangements. -/
lemma perm_pair_eq {α : Type _} {a b : α} {l : List α} (h : l.Perm [a, b]) :
    l = [a, b] ∨ l = [b, a] := by
  have hlen : l.length = 2 := by simpa using h.length_eq
  match l, hlen with
  | [x, y], _ =>
    have hx : x ∈ [a, b] := h.subset (List.mem_cons_self x [y])
    rcases List.mem_pair.mp hx with hxa | hxb
    · have h2 : [y].Perm [b] := by
        rw [hxa] at h
        exact h.cons_inv
      have hy : y = b := by simpa using List.perm_singleton.mp h2
      exact Or.inl (by rw [hxa, hy])
    · have hswap : ([a, b] : List α).Perm [b, a] := List.Perm.swap b a []
      have h2 : [y].Perm [a] := by
        rw [hxb] at h
        exact (h.trans hswap).cons_inv
      have hy : y = a := by simpa using List.perm_singleton.mp h2
      exact Or.inr (by rw [hxb, hy])

/-! ## Claim theorems -/

/-- C1: ingestion is idempotent per source URL.  If a row with the candidate
source URL already exists, `save_scholarship_to_db` returns false and leaves
the store unchanged; and whenever a save succeeds, the resulting store holds
exactly one row with that URL and a second save of the same candidate is
rejected without mutation. -/
theorem save_scholarship_idempotent (sch : Scholarship) (db db' : List ScholarshipModel) :
    (db.any (fun r => r.source_url == sch.source_url) = true →
      save_scholarship_to_db sch db = (false, db)) ∧
    (save_scholarship_to_db sch db = (true, db') →
      db'.countP (fun r => r.source_url == sch.source_url) = 1 ∧
      save_scholarship_to_db sch db' = (false, db')) := by
  constructor
  · intro h
    simp [save_scholarship_to_db, h]
  · intro h
    by_cases hdup : db.any (fun r => r.source_url == sch.source_url) = true
    · simp [save_scholarship_to_db, hdup] at h
    · by_cases hrel : ContentAnalyzer.calculate_relevance_score (sch.description.getD "") ≤ 0
      · simp [save_scholarship_to_db, hdup, hrel] at h
      · have hdb' : db' = db ++ [savedRow sch] := by
          simp [save_scholarship_to_db, hdup, hrel] at h
          exact h.symm
        have hzero : db.countP (fun r => r.source_url == sch.source_url) = 0 := by
          rw [List.countP_eq_zero]
          intro r hr hc
          exact absurd ⟨r, hr, hc⟩ (List.any_eq_true.not.mp hdup)
        constructor
        · subst hdb'
          simp [List.countP_append, hzero, savedRow]
        · subst hdb'
          have hany : (db ++ [savedRow sch]).any (fun r => r.source_url == sch.source_url)
              = true := by
            simp [List.any_append, savedRow]
          simp [save_scholarship_to_db, hany]

/-- C1 witness: concrete duplicate rejection and concrete single-row store
after a successful ingestion followed by a rejected duplicate ingestion. -/
theorem save_scholarship_idempotent_witness :
    save_scholarship_to_db sampleCandidate [sampleDupRow] = (false, [sampleDupRow]) ∧
    (sampleStore.countP (fun r => r.source_url == sampleCandidate.source_url) = 1 ∧
      save_scholarship_to_db sampleCandidate sampleStore = (false, sampleStore)) :=
  ⟨(save_scholarship_idempotent sampleCandidate [sampleDupRow] []).1 (by decide),
   (save_scholarship_idempotent sampleCandidate [] sampleStore).2 (by decide)⟩

/-- C2: the claim states that the Field Extractor and the Enrichment
Processor have identical amount extraction semantics; the code violates this
on the input dollar-5000, where the analyzer returns the match verbatim and
the enrichment version returns a normalized thousands-grouped string. -/
theorem extract_amount_semantics_diverge :
    ContentAnalyzer.extract_amount "$5000" = some "$5000" ∧
    EnrichmentProcessor.extract_amount "$5000" = some "$5,000" ∧
    ContentAnalyzer.extract_amount "$5000" ≠ EnrichmentProcessor.extract_amount "$5000" := by
  refine ⟨by decide, by decide, by decide⟩

/-- C3: the claim states that every extracted amount is normalized to a
thousands-grouped dollar string and that N-dollars mentions are recognized;
the code violates both: the digits-then-dollars matches are computed but
never used (so a text carrying only such a mention extracts nothing, in both
implementations), and the analyzer returns matches unnormalized. -/
theorem extract_amount_dollars_style_not_recognized :
    EnrichmentProcessor.matches_usd "5,000 dollars" = ["5000 dollars"] ∧
    EnrichmentProcessor.extract_amount "5,000 dollars" = none ∧
    ContentAnalyzer.extract_amount "5,000 dollars" = none ∧
    ContentAnalyzer.extract_amount "$5000" = some "$5000" := by
  refine ⟨by decide, by decide, by decide, by decide⟩

/-- C4: the filter cascade fires in strict priority order, first match
deciding the verdict (invalid input, trusted domain allow, edu allow,
article domain block, article path block, scholarship path allow, default
allow), and the three concrete URLs of the specification get the stated
verdicts and reason categories. -/
theorem filter_url_rule_cascade :
    (UrlFilter.filter_url "" = (false, "invalid: empty or not a string")) ∧
    (∀ domain path t, UrlFilter.findDomain UrlFilter.SCHOLARSHIP_DOMAINS domain = some t →
      UrlFilter.filterCascade domain path
        = (true, "allowed: trusted scholarship domain (" ++ t ++ ")")) ∧
    (∀ domain path, UrlFilter.findDomain UrlFilter.SCHOLARSHIP_DOMAINS domain = none →
      endsWithStr domain ".edu" = true →
      UrlFilter.filterCascade domain path = (true, "allowed: .edu domain")) ∧
    (∀ domain path d, UrlFilter.findDomain UrlFilter.SCHOLARSHIP_DOMAINS domain = none →
      endsWithStr domain ".edu" = false →
      UrlFilter.findDomain UrlFilter.ARTICLE_DOMAINS domain = some d →
      UrlFilter.filterCascade domain path
        = (false, "blocked: article/news domain (" ++ d ++ ")")) ∧
    (∀ domain path p, UrlFilter.findDomain UrlFilter.SCHOLARSHIP_DOMAINS domain = none →
      endsWithStr domain ".edu" = false →
      UrlFilter.findDomain UrlFilter.ARTICLE_DOMAINS domain = none →
      UrlFilter.findPathPattern UrlFilter.ARTICLE_PATH_PATTERNS path = some p →
      UrlFilter.filterCascade domain path = (false, "blocked: contains " ++ p ++ " pattern")) ∧
    (∀ domain path p, UrlFilter.findDomain UrlFilter.SCHOLARSHIP_DOMAINS domain = none →
      endsWithStr domain ".edu" = false →
      UrlFilter.findDomain UrlFilter.ARTICLE_DOMAINS domain = none →
      UrlFilter.findPathPattern UrlFilter.ARTICLE_PATH_PATTERNS path = none →
      UrlFilter.findPathPattern UrlFilter.SCHOLARSHIP_PATH_PATTERNS path = some p →
      UrlFilter.filterCascade domain path
        = (true, "allowed: scholarship-related path (" ++ p ++ ")")) ∧
    (∀ domain path, UrlFilter.findDomain UrlFilter.SCHOLARSHIP_DOMAINS domain = none →
      endsWithStr domain ".edu" = false →
      UrlFilter.findDomain UrlFilter.ARTICLE_DOMAINS domain = none →
      UrlFilter.findPathPattern UrlFilter.ARTICLE_PATH_PATTERNS path = none →
      UrlFilter.findPathPattern UrlFilter.SCHOLARSHIP_PATH_PATTERNS path = none →
      UrlFilter.filterCascade domain path
        = (true, "allowed: no blocking patterns found (neutral)")) ∧
    (UrlFilter.filter_url "https://mit.edu/financial-aid/scholarships"
      = (true, "allowed: .edu domain")) ∧
    (UrlFilter.filter_url "https://medium.com/scholarships-for-students"
      = (false, "blocked: article/news domain (medium.com)")) ∧
    (UrlFilter.filter_url "https://example.org/apply"
      = (true, "allowed: scholarship-related path (/apply)")) := by
  refine ⟨by decide, ?_, ?_, ?_, ?_, ?_, ?_, by decide, by decide, by decide⟩
  · intro domain path t h
    simp [UrlFilter.filterCascade, h]
  · intro domain path h1 h2
    simp [UrlFilter.filterCascade, h1, h2]
  · intro domain path d h1 h2 h3
    simp [UrlFilter.filterCascade, h1, h2, h3]
  · intro domain path p h1 h2 h3 h4
    simp [UrlFilter.filterCascade, h1, h2, h3, h4]
  · intro domain path p h1 h2 h3 h4 h5
    simp [UrlFilter.filterCascade, h1, h2, h3, h4, h5]
  · intro domain path h1 h2 h3 h4 h5
    simp [UrlFilter.filterCascade, h1, h2, h3, h4, h5]

/-- C4 witness: the trusted, edu and article rules applied at concrete
domains, with every hypothesis discharged by evaluation. -/
theorem filter_url_rule_cascade_witness :
    UrlFilter.filterCascade "fastweb.com" "/x"
      = (true, "allowed: trusted scholarship domain (fastweb.com)") ∧
    UrlFilter.filterCascade "mit.edu" "/y" = (true, "allowed: .edu domain") ∧
    UrlFilter.filterCascade "medium.com" "/z"
      = (false, "blocked: article/news domain (medium.com)") :=
  ⟨filter_url_rule_cascade.2.1 "fastweb.com" "/x" "fastweb.com" (by decide),
   filter_url_rule_cascade.2.2.1 "mit.edu" "/y" (by decide) (by decide),
   filter_url_rule_cascade.2.2.2.1 "medium.com" "/z" "medium.com"
     (by decide) (by decide) (by decide)⟩

/-- C5: when the fetched content is empty or shorter than 100 characters,
`classify_url` returns the fail-closed default: classification UNKNOWN,
confidence zero, not worth saving, for every URL and client state. -/
theorem classify_url_fail_closed (url content : String)
    (client : Option (Option ContentClassifier.AiJson))
    (h : content = "" ∨ strLen content < 100) :
    (ContentClassifier.classify_url url content client).classification = some "UNKNOWN" ∧
    (ContentClassifier.classify_url url content client).confidence = 0 ∧
    (ContentClassifier.classify_url url content client).is_worth_saving = false := by
  have hcond : (content == "" || decide (strLen content < 100)) = true := by
    rcases h with h | h
    · simp [h]
    · simp [h]
  simp [ContentClassifier.classify_url, hcond, ContentClassifier.default_result]

/-- C5 witness: a concrete short page yields the fail-closed default. -/
theorem classify_url_fail_closed_witness :
    (ContentClassifier.classify_url "https://example.org" "short" none).classification
      = some "UNKNOWN" ∧
    (ContentClassifier.classify_url "https://example.org" "short" none).confidence = 0 ∧
    (ContentClassifier.classify_url "https://example.org" "short" none).is_worth_saving
      = false :=
  classify_url_fail_closed "https://example.org" "short" none (Or.inr (by decide))

/-- C6: on every path of `classify_url` (fetch-failure default, AI path,
heuristic fallback) the worth flag equals the test that the classification
is APPLICATION or INFO; it is never set independently. -/
theorem classify_url_worth_derived (url content : String)
    (client : Option (Option ContentClassifier.AiJson)) :
    (ContentClassifier.classify_url url content client).is_worth_saving
      = ((ContentClassifier.classify_url url content client).classification == some "APPLICATION"
        || (ContentClassifier.classify_url url content client).classification == some "INFO") := by
  unfold ContentClassifier.classify_url
  split
  · rfl
  · match client with
    | none => rfl
    | some none => rfl
    | some (some j) => rfl

/-- C7 counterexample: the claim says ties are broken by input order, but the
source deduplicates through a Python set before the stable sort, so a valid
set-iteration order reverses a two-way tie: both URLs score 80, the first
URL of the input list is not returned. -/
theorem get_best_tie_not_input_order :
    UrlFilter.scoreUrl tieUrlA = some 80 ∧
    UrlFilter.scoreUrl tieUrlB = some 80 ∧
    [tieUrlB, tieUrlA].Perm ((UrlFilter.cleanedUrls [tieUrlA, tieUrlB]).dedup) ∧
    UrlFilter.get_best_scholarship_url [tieUrlA, tieUrlB] [tieUrlB, tieUrlA] = tieUrlB ∧
    tieUrlB ≠ tieUrlA := by
  refine ⟨by decide, by decide, by decide, by decide, by decide⟩

/-- C7 (amended): `get_best_scholarship_url` returns a surviving URL of
maximal score (+100 trusted, +80 edu, +50 scholarship path, +30 apply
bonus), with ties broken by the implementation-defined deduplication order
rather than input order; the concrete two-URL example of the specification
returns the fastweb URL under every deduplication order because it scores
strictly higher. -/
theorem get_best_returns_max_score :
    (∀ urls deduped s u, (s, u) ∈ UrlFilter.scoredList deduped →
      urls.isEmpty = false →
      ∃ s', (s', UrlFilter.get_best_scholarship_url urls deduped) ∈ UrlFilter.scoredList deduped
        ∧ s ≤ s') ∧
    (∀ deduped, deduped.Perm ((UrlFilter.cleanedUrls [blogUrl, fastwebUrl]).dedup) →
      UrlFilter.get_best_scholarship_url [blogUrl, fastwebUrl] deduped = fastwebUrl) := by
  constructor
  · intro urls deduped s u hmem hne
    haveI : IsTotal (Nat × String) (fun a b => b.1 ≤ a.1) := ⟨fun x y => Nat.le_total y.1 x.1⟩
    haveI : IsTrans (Nat × String) (fun a b => b.1 ≤ a.1) :=
      ⟨fun x y z hxy hyz => Nat.le_trans hyz hxy⟩
    unfold UrlFilter.get_best_scholarship_url
    rw [hne]
    cases hL : UrlFilter.scoredList deduped with
    | nil => rw [hL] at hmem; cases hmem
    | cons a as =>
      rw [hL] at hmem
      have hperm : ((a :: as).insertionSort (fun a b => b.1 ≤ a.1)).Perm (a :: as) :=
        List.perm_insertionSort _ _
      have hsorted : List.Sorted (fun a b => b.1 ≤ a.1)
          ((a :: as).insertionSort (fun a b => b.1 ≤ a.1)) :=
        List.sorted_insertionSort _ _
      cases hsp : (a :: as).insertionSort (fun a b => b.1 ≤ a.1) with
      | nil =>
        exfalso
        have := hperm.length_eq
        rw [hsp] at this
        simp at this
      | cons hd tl =>
        refine ⟨hd.1, ?_, ?_⟩
        · simp only [Bool.false_eq_true, if_false, hL, hsp, List.headD_cons]
          have : hd ∈ a :: as := hperm.subset (hsp ▸ List.mem_cons_self hd tl)
          simpa using this
        · have hmem' : (s, u) ∈ (a :: as).insertionSort (fun a b => b.1 ≤ a.1) :=
            hperm.mem_iff.mpr hmem
          rw [hsp] at hmem'
          rcases List.mem_cons.mp hmem' with heq | htl
          · rw [← heq]
          · rw [hsp] at hsorted
            exact (List.pairwise_cons.mp hsorted).1 (s, u) htl
  · intro deduped hperm
    have hd : (UrlFilter.cleanedUrls [blogUrl, fastwebUrl]).dedup = [blogUrl, fastwebUrl] := by
      decide
    rw [hd] at hperm
    rcases perm_pair_eq hperm with h | h <;> subst h <;> decide

/-- C7 witness: the maximality clause applied at a concrete singleton input,
and the specification example applied at a concrete deduplication order. -/
theorem get_best_returns_max_score_witness :
    (∃ s', (s', UrlFilter.get_best_scholarship_url [tieUrlA] [tieUrlA])
      ∈ UrlFilter.scoredList [tieUrlA] ∧ 80 ≤ s') ∧
    UrlFilter.get_best_scholarship_url [blogUrl, fastwebUrl] [fastwebUrl, blogUrl] = fastwebUrl :=
  ⟨get_best_returns_max_score.1 [tieUrlA] [tieUrlA] 80 tieUrlA (by decide) (by decide),
   get_best_returns_max_score.2 [fastwebUrl, blogUrl] (by decide)⟩

/-- C8: enrichment is non-destructive.  The per-record update never changes
the title, source URL, platform or raw text; a populated amount or deadline
is never changed; any change to amount or deadline fills a null field from a
truthy enrichment value; and any change to the description happens only when
the stored description is absent or shorter than 100 characters, replacing
it by the 500-character truncation of the fetched text plus a continuation
marker. -/
theorem enrichment_non_destructive (sch : ScholarshipModel) (res : EnrichResult) :
    (apply_enrichment sch res).title = sch.title ∧
    (apply_enrichment sch res).source_url = sch.source_url ∧
    (apply_enrichment sch res).platform = sch.platform ∧
    (apply_enrichment sch res).raw_text = sch.raw_text ∧
    (sch.amount.isSome = true → (apply_enrichment sch res).amount = sch.amount) ∧
    (sch.deadline.isSome = true → (apply_enrichment sch res).deadline = sch.deadline) ∧
    ((apply_enrichment sch res).amount ≠ sch.amount →
      sch.amount = none ∧ (apply_enrichment sch res).amount = res.amount ∧
      res.amount.isSome = true) ∧
    ((apply_enrichment sch res).deadline ≠ sch.deadline →
      sch.deadline = none ∧ (apply_enrichment sch res).deadline = res.deadline ∧
      res.deadline.isSome = true) ∧
    ((apply_enrichment sch res).description ≠ sch.description →
      (sch.description = none ∨ strLen (sch.description.getD "") < 100) ∧
      (apply_enrichment sch res).description
        = some (takeStr (res.full_text.getD "") 500 ++ "...")) := by
  unfold apply_enrichment
  refine ⟨rfl, rfl, rfl, rfl, ?_, ?_, ?_, ?_, ?_⟩
  · intro ha
    have hn : sch.amount.isNone = false := by cases h : sch.amount <;> simp_all
    simp [hn]
  · intro hd
    have hn : sch.deadline.isNone = false := by cases h : sch.deadline <;> simp_all
    simp [hn]
  · intro hne
    by_cases hc : (optTruthy res.amount && sch.amount.isNone) = true
    · simp only [Bool.and_eq_true] at hc
      obtain ⟨h1, h2⟩ := hc
      refine ⟨?_, ?_, ?_⟩
      · cases h : sch.amount <;> simp_all
      · simp [h1, h2]
      · cases h : res.amount <;> simp_all [optTruthy]
    · exfalso
      apply hne
      rw [Bool.not_eq_true] at hc
      simp [hc]
  · intro hne
    by_cases hc : (optTruthy res.deadline && sch.deadline.isNone) = true
    · simp only [Bool.and_eq_true] at hc
      obtain ⟨h1, h2⟩ := hc
      refine ⟨?_, ?_, ?_⟩
      · cases h : sch.deadline <;> simp_all
      · simp [h1, h2]
      · cases h : res.deadline <;> simp_all [optTruthy]
    · exfalso
      apply hne
      rw [Bool.not_eq_true] at hc
      simp [hc]
  · intro hne
    by_cases hc : (optTruthy res.full_text && descShort sch.description) = true
    · simp only [Bool.and_eq_true] at hc
      obtain ⟨h1, h2⟩ := hc
      refine ⟨?_, ?_⟩
      · cases h : sch.description with
        | none => exact Or.inl rfl
        | some d => right; simp_all [descShort]
      · simp [h1, h2]
    · exfalso
      apply hne
      rw [Bool.not_eq_true] at hc
      simp [hc]

/-- C8 witness: a fully populated row keeps its amount and deadline even
though the enrichment result suggests different values. -/
theorem enrichment_non_destructive_witness :
    (apply_enrichment enrichedRow enrichSuggestion).amount = enrichedRow.amount ∧
    (apply_enrichment enrichedRow enrichSuggestion).deadline = enrichedRow.deadline :=
  ⟨(enrichment_non_destructive enrichedRow enrichSuggestion).2.2.2.2.1 (by decide),
   (enrichment_non_destructive enrichedRow enrichSuggestion).2.2.2.2.2.1 (by decide)⟩

/-- C9 counterexample: appending the positive keyword scholarship to the
text sweepstake creates the negative keyword sweepstakes across the
junction, so the score strictly decreases (from 0 to -40), refuting the
claim that adding a positive keyword never decreases the score. -/
theorem relevance_insert_positive_decreases :
    "scholarship" ∈ ContentAnalyzer.keywords ∧
    "sweepstake" ++ "scholarship" = "sweepstakescholarship" ∧
    ContentAnalyzer.calculate_relevance_score "sweepstake" = 0 ∧
    ContentAnalyzer.calculate_relevance_score "sweepstakescholarship" = -40 := by
  refine ⟨by decide, by decide, by decide, by decide⟩

/-- C9 (amended): the relevance score is monotone in keyword presence:
whenever an edit (such as appending or inserting a positive keyword) keeps
every previously present positive keyword present and introduces no new
negative keyword, the score does not decrease; the symmetric instantiation
covers edits that add a negative keyword.  The unguarded claim fails
because an inserted occurrence can create a keyword of the other polarity
across the junction. -/
theorem relevance_score_monotone (t t' : String)
    (hpos : ∀ w ∈ ContentAnalyzer.keywords,
      strContains (lowerStr t) w = true → strContains (lowerStr t') w = true)
    (hneg : ∀ w ∈ ContentAnalyzer.negative_keywords,
      strContains (lowerStr t') w = true → strContains (lowerStr t) w = true) :
    ContentAnalyzer.calculate_relevance_score t ≤ ContentAnalyzer.calculate_relevance_score t' := by
  rw [calculate_relevance_score_eq, calculate_relevance_score_eq]
  have h1 : (ContentAnalyzer.keywords.countP (fun w => strContains (lowerStr t) w))
      ≤ (ContentAnalyzer.keywords.countP (fun w => strContains (lowerStr t') w)) :=
    List.countP_mono_left hpos
  have h2 : (ContentAnalyzer.negative_keywords.countP (fun w => strContains (lowerStr t') w))
      ≤ (ContentAnalyzer.negative_keywords.countP (fun w => strContains (lowerStr t) w)) :=
    List.countP_mono_left hneg
  omega

/-- C9 witness: appending a separated positive keyword occurrence does not
decrease the score of a concrete text. -/
theorem relevance_score_monotone_witness :
    ContentAnalyzer.calculate_relevance_score "grant"
      ≤ ContentAnalyzer.calculate_relevance_score "grant aid" :=
  relevance_score_monotone "grant" "grant aid" (by decide) (by decide)

/-- C10: keyword detection is substring containment on the lowercased text
with each keyword contributing at most once: the score always equals ten
times the number of positive keywords present minus fifty times the number
of negative keywords present, a text containing loans triggers the negative
keyword loan, a text containing paid triggers the positive keyword aid, and
repetition does not accumulate. -/
theorem relevance_substring_keyword_semantics :
    (∀ text, ContentAnalyzer.calculate_relevance_score text
      = 10 * (ContentAnalyzer.keywords.countP (fun w => strContains (lowerStr text) w) : Int)
        - 50 * (ContentAnalyzer.negative_keywords.countP
            (fun w => strContains (lowerStr text) w) : Int)) ∧
    ContentAnalyzer.calculate_relevance_score "loans" = -50 ∧
    ContentAnalyzer.calculate_relevance_score "paid" = 10 ∧
    ContentAnalyzer.calculate_relevance_score "aid aid aid" = 10 :=
  ⟨calculate_relevance_score_eq, by decide, by decide, by decide⟩
